import Mathlib

/-!
# Verification of the ReXcan invoice-extraction decision pipeline

Shallow embedding of the decision-engine core of the ReXcan repository
(`python/app/confidence.py`, `heuristics.py`, `utils.py`, `deduplication.py`,
`backpressure.py`, and the decision slice of `main.py`), together with
theorems settling the specification claims about it.

Modelling conventions:
* Python floats are modelled as exact rationals (`ℚ`).
* Python strings are modelled as Lean `String`s; the ASCII fragment of
  Python's text predicates (`str.lower`, `\s`, `\w`, NFKC — identity on
  ASCII) is embedded, which covers all string data appearing in the claims.
* Calls into external libraries that are not part of this repository
  (`rapidfuzz.fuzz.partial_ratio`, `math.log10`, `hashlib.sha256`) are
  abstracted as explicit function parameters; every theorem about code using
  them holds for all values of those parameters unless noted.
  `rapidfuzz.fuzz.ratio` is embedded concretely as the normalized indel
  similarity `200·LCS/(|s1|+|s2|)`, which is its documented definition.
-/

/- Rational arithmetic is used throughout the embedding; make the Batteries
`Rat` operations evaluable so that concrete runs of the embedded code can be
checked by `decide`. -/
unseal Rat.add Rat.sub Rat.mul Rat.inv Rat.ofScientific

namespace ReXcan

/-! ## Python string primitives (ASCII model) -/

/-- Python `\s` (ASCII fragment): space, tab, newline, CR, VT, FF. -/
def isPyWs (c : Char) : Bool :=
  c = ' ' || c = '\t' || c = '\n' || c = '\r' || c = '\x0b' || c = '\x0c'

/-- Python `\w` (ASCII fragment): letters, digits, underscore. -/
def isWordChar (c : Char) : Bool := c.isAlphanum || c = '_'

def pyLower (s : String) : String := ⟨s.data.map Char.toLower⟩

def pyStripList (cs : List Char) : List Char :=
  ((cs.dropWhile isPyWs).reverse.dropWhile isPyWs).reverse

/-- Python `str.strip()`. -/
def pyStrip (s : String) : String := ⟨pyStripList s.data⟩

/-- `needle` occurs as a contiguous sublist of `hay` (Python `in` on strings). -/
def listContainsSub (hay needle : List Char) : Bool :=
  (List.range (hay.length + 1)).any fun i => needle.isPrefixOf (hay.drop i)

/-- Python `needle in hay` for strings. -/
def strContains (hay needle : String) : Bool := listContainsSub hay.data needle.data

/-- Python `str.split()` with no argument: split on whitespace runs,
dropping empty pieces. -/
def pySplitWs (s : String) : List String :=
  ((s.data.splitOnP isPyWs).filter (fun l => l ≠ [])).map (fun l => ⟨l⟩)

/-! ## `app/confidence.py` -/

/-- `app/confidence.py::compute_confidence`.  Exact rational model of the
float formula `clamp(0, 1, 0.2 + 0.7*min(...) + (0.1 if llm_agree else 0))`. -/
def compute_confidence (ocr_c label_score regex_score : ℚ)
    (llm_agree : Bool := false) : ℚ :=
  let base : ℚ := 0.2
  let final := base + 0.7 * min ocr_c (min label_score regex_score) +
    (if llm_agree then (0.1 : ℚ) else 0.0)
  max 0.0 (min 1.0 final)

/-- Python `dict.get(k, default)` on a string-keyed dict of floats,
modelled as an association list. -/
def dictGet (d : List (String × ℚ)) (k : String) (dflt : ℚ) : ℚ :=
  match d.find? (fun p => p.1 == k) with
  | some p => p.2
  | none => dflt

/-- Python `a or b` on numbers: `a` unless `a` is zero (falsy). -/
def pyOrQ (a b : ℚ) : ℚ := if a ≠ 0 then a else b

/-- `app/confidence.py::should_use_llm`.  `timings` is `Optional[Dict]`;
the dict is an association list whose Python truthiness is nonemptiness. -/
def should_use_llm (confidence : ℚ) (field_name : String) (is_required : Bool)
    (timings : Option (List (String × ℚ))) (field_missing : Bool) :
    Bool × String :=
  if field_missing ∧ is_required then (true, "missing_field")
  else if confidence < 0.5 ∧ is_required then (true, "low_conf")
  else
    match timings with
    | some t =>
      if t ≠ [] ∧ is_required then
        let ocr_time := pyOrQ (dictGet t "ocr" 0) (dictGet t "extraction" 0)
        let heur_time := dictGet t "heuristics" 0
        let total_time := ocr_time + heur_time
        if total_time > 10.0 ∧ confidence < 0.85 then (true, "slow_pipeline")
        else (false, "")
      else (false, "")
    | none => (false, "")

/-- `app/confidence.py::get_confidence_badge`. -/
def get_confidence_badge (confidence : ℚ) : String :=
  if confidence ≥ 0.85 then "auto-accept"
  else if confidence ≥ 0.5 then "flag"
  else "llm-required"

/-- The OCR-stage time the trigger policy reads from the timing dict:
`timings.get("ocr", 0) or timings.get("extraction", 0)`. -/
def pipelineOcrTime (t : List (String × ℚ)) : ℚ :=
  pyOrQ (dictGet t "ocr" 0) (dictGet t "extraction" 0)

/-- The heuristics-stage time read from the timing dict. -/
def pipelineHeurTime (t : List (String × ℚ)) : ℚ := dictGet t "heuristics" 0

/-! ## `app/backpressure.py` -/

/-- State of `app/backpressure.py::RateLimiter`: a sliding window of call
timestamps (deque, oldest first). -/
structure RateLimiter where
  max_calls : ℕ
  time_window : ℚ
  calls : List ℚ
deriving Repr, DecidableEq

/-- `RateLimiter.acquire`, with the clock (`time.time()`) passed explicitly:
evict timestamps older than the window from the front, refuse when the
window is full, otherwise append `now`. -/
def RateLimiter.acquire (rl : RateLimiter) (now : ℚ) : Bool × RateLimiter :=
  let calls := rl.calls.dropWhile (fun t => t < now - rl.time_window)
  if calls.length ≥ rl.max_calls then (false, { rl with calls := calls })
  else (true, { rl with calls := calls ++ [now] })

/-- `RateLimiter.wait_time` (clock explicit).  The Python code indexes
`calls[0]`; the unreachable empty case (only possible with `max_calls = 0`)
is modelled as 0. -/
def RateLimiter.wait_time (rl : RateLimiter) (now : ℚ) : ℚ :=
  if rl.calls.length < rl.max_calls then 0
  else
    match rl.calls with
    | [] => 0
    | t :: _ => max 0 (rl.time_window - (now - t))

/-! ## `app/deduplication.py` -/

/-- Python truthiness of an `Optional[str]`: `None` and `""` are falsy. -/
def truthyStr : Option String → Bool
  | some s => s ≠ ""
  | none => false

/-- Python truthiness of an `Optional[float]`: `None` and `0.0` are falsy. -/
def truthyQ : Option ℚ → Bool
  | some q => q ≠ 0
  | none => false

/-- Smallest `k ≤ 30` with `d ∣ 10^k`, if any. -/
def pow10Exp (d : ℕ) : Option ℕ := (List.range 31).find? (fun k => d ∣ 10 ^ k)

/-- Python `str()` of a float, modelled for exact decimal rationals
(`str(544.46) = "544.46"`, `str(100.0) = "100.0"`); rationals without a
finite decimal expansion — which never arise from Python floats — fall back
to a fraction rendering. -/
def pyFloatRepr (q : ℚ) : String :=
  let sign := if q < 0 then "-" else ""
  let n := q.num.natAbs
  if q.den = 1 then sign ++ toString n ++ ".0"
  else
    match pow10Exp q.den with
    | some k =>
      let ds := (toString (n * (10 ^ k / q.den))).data
      let ds := List.replicate (k + 1 - ds.length) '0' ++ ds
      let ip : List Char := ds.take (ds.length - k)
      let fp := (((ds.drop (ds.length - k)).reverse.dropWhile (· = '0')).reverse)
      let fp := if fp = [] then ['0'] else fp
      sign ++ ⟨ip⟩ ++ "." ++ ⟨fp⟩
    | none => sign ++ toString n ++ "/" ++ toString q.den

/-- One value of the next LCS row: walks the remaining second string
together with the previous row (`rPrev :: rRest` aligned at the current
column), carrying the value just produced. -/
def lcsRowGo (c : Char) : List Char → List ℕ → ℕ → List ℕ
  | bj :: bs, rPrev :: rRest, newPrev =>
    let rCur := rRest.headD 0
    let v := if c = bj then rPrev + 1 else max newPrev rCur
    v :: lcsRowGo c bs rRest v
  | _, _, _ => []

/-- Length of the longest common subsequence (row dynamic program). -/
def lcsLen (a b : List Char) : ℕ :=
  let init : List ℕ := List.replicate (b.length + 1) 0
  let finalRow := a.foldl (fun row c => 0 :: lcsRowGo c b row 0) init
  finalRow.getLastD 0

/-- `rapidfuzz.fuzz.ratio`: the normalized indel similarity
`100·(1 − dist/(|s1|+|s2|)) = 200·LCS/(|s1|+|s2|)`, in `[0, 100]`. -/
def fuzzRatio (s1 s2 : String) : ℚ :=
  let l := s1.length + s2.length
  if l = 0 then 100 else 200 * (lcsLen s1.data s2.data : ℚ) / l

/-- An invoice record as consumed by the deduplication engine: the four
identity fields, the job id, and the remaining dict entries. -/
structure DedupRecord where
  vendor_id : Option String := none
  invoice_id : Option String := none
  total_amount : Option ℚ := none
  invoice_date : Option String := none
  job_id : Option String := none
  extra : List (String × String) := []
deriving Repr, DecidableEq, Inhabited

/-- All four identity fields of a record are truthy. -/
def identityTruthy (r : DedupRecord) : Bool :=
  truthyStr r.vendor_id && truthyStr r.invoice_id &&
    truthyQ r.total_amount && truthyStr r.invoice_date

/-- `app/deduplication.py::compute_dedupe_hash`.  `sha256hex` abstracts
`hashlib.sha256(·.encode()).hexdigest()`. -/
def compute_dedupe_hash (sha256hex : String → String)
    (vendor_id invoice_id : Option String) (total_amount : Option ℚ)
    (invoice_date : Option String) : Option String :=
  if truthyStr vendor_id && truthyStr invoice_id && truthyQ total_amount &&
      truthyStr invoice_date then
    some (sha256hex (vendor_id.getD "" ++ "|" ++ invoice_id.getD "" ++ "|" ++
      pyFloatRepr (total_amount.getD 0) ++ "|" ++ invoice_date.getD ""))
  else none

/-- `compute_dedupe_hash` applied to a record's four identity fields, as the
callers in `deduplication.py` do. -/
def recordDedupeHash (sha256hex : String → String) (r : DedupRecord) :
    Option String :=
  compute_dedupe_hash sha256hex r.vendor_id r.invoice_id r.total_amount
    r.invoice_date

/-- The space-separated comparison string
`vendor ++ " " ++ invoice ++ " " ++ total ++ " " ++ date`
built by `detect_near_duplicates`. -/
def dedupeCompareStr (r : DedupRecord) : String :=
  r.vendor_id.getD "" ++ " " ++ r.invoice_id.getD "" ++ " " ++
    pyFloatRepr (r.total_amount.getD 0) ++ " " ++ r.invoice_date.getD ""

/-- The four identity fields coincide (the "exact match, skip" test inside
the near-duplicate loop). -/
def sameIdentity (a b : DedupRecord) : Bool :=
  a.vendor_id == b.vendor_id && a.invoice_id == b.invoice_id &&
    a.total_amount == b.total_amount && a.invoice_date == b.invoice_date

/-- The loop body of `detect_near_duplicates`: `none` when the existing
record is skipped, `some (job_id, similarity)` when it is appended. -/
def nearDupEntry (invoice : DedupRecord) (threshold : ℚ) (ex : DedupRecord) :
    Option (String × ℚ) :=
  if ¬ identityTruthy ex then none
  else if sameIdentity ex invoice then none
  else
    let similarity :=
      fuzzRatio (pyLower (dedupeCompareStr invoice))
        (pyLower (dedupeCompareStr ex)) / 100
    if similarity ≥ threshold then some (ex.job_id.getD "unknown", similarity)
    else none

/-- Stable insertion keeping the list sorted by descending similarity
(a new element goes after all elements with a ≥ key). -/
def insertSimDesc (x : String × ℚ) : List (String × ℚ) → List (String × ℚ)
  | [] => [x]
  | y :: ys => if y.2 ≥ x.2 then y :: insertSimDesc x ys else x :: y :: ys

/-- Python's stable `sorted(..., key=lambda x: x[1], reverse=True)`. -/
def sortSimDesc (l : List (String × ℚ)) : List (String × ℚ) :=
  l.foldl (fun acc x => insertSimDesc x acc) []

/-- `app/deduplication.py::detect_near_duplicates` (default threshold 0.95).
The conditional-append loop is rendered as a `filterMap`. -/
def detect_near_duplicates (invoice : DedupRecord)
    (existing : List DedupRecord) (threshold : ℚ := 0.95) :
    List (String × ℚ) :=
  if ¬ identityTruthy invoice then []
  else sortSimDesc (existing.filterMap (nearDupEntry invoice threshold))

/-- `app/deduplication.py::check_duplicates`. -/
def check_duplicates (sha256hex : String → String) (invoice : DedupRecord)
    (existing_hashes : List String)
    (existing_invoices : Option (List DedupRecord)) :
    Bool × Bool × List (String × ℚ) :=
  let dedupe_hash := recordDedupeHash sha256hex invoice
  let is_exact :=
    match dedupe_hash with
    | some h => existing_hashes.contains h
    | none => false
  if (match existing_invoices with
      | some l => !l.isEmpty
      | none => false) && !is_exact then
    let near := detect_near_duplicates invoice (existing_invoices.getD [])
    (is_exact, near ≠ [], near)
  else (is_exact, false, [])

/-! ## Concrete records for the deduplication claims -/

/-- Candidate record whose comparison string is
`"abc 11 1.5 2024-01-01"` (21 characters). -/
def c7cand : DedupRecord :=
  { vendor_id := some "abc", invoice_id := some "11", total_amount := some (3/2),
    invoice_date := some "2024-01-01", job_id := some "cand" }

/-- A stored record identical to `c7cand` in all four identity fields. -/
def c7exact : DedupRecord := { c7cand with job_id := some "ex0" }

/-- A stored record differing from `c7cand` only in the invoice id. -/
def c7near (invId jobId : String) : DedupRecord :=
  { c7cand with invoice_id := some invId, job_id := some jobId }

/-- Seven stored records: one exactly equal to the candidate and six with a
one-character difference (similarity 20/21 ≈ 0.952 each). -/
def c7existing : List DedupRecord :=
  [c7exact, c7near "12" "ex1", c7near "13" "ex2", c7near "14" "ex3",
   c7near "15" "ex4", c7near "16" "ex5", c7near "17" "ex6"]

/-- Candidate whose comparison string has exactly 20 characters:
`"abc 11 1.5 a23456789"`. -/
def c7bcand : DedupRecord :=
  { vendor_id := some "abc", invoice_id := some "11", total_amount := some (3/2),
    invoice_date := some "a23456789", job_id := some "bc" }

/-- One-character variant of `c7bcand`: similarity exactly
`200·19/40 = 95`, i.e. 0.95. -/
def c7bex095 : DedupRecord := { c7bcand with invoice_id := some "12", job_id := some "b095" }

/-- Candidate whose comparison string has exactly 50 characters. -/
def c7bcand94 : DedupRecord :=
  { vendor_id := some "aaaaaaaaaaaaaaaaaaaaaaaaaaaaaaa", invoice_id := some "111",
    total_amount := some (3/2), invoice_date := some "2024-01-01",
    job_id := some "bc94" }

/-- Three-character variant of `c7bcand94`: similarity `200·47/100 = 94`,
i.e. 0.94 < 0.95. -/
def c7bex094 : DedupRecord := { c7bcand94 with invoice_id := some "222", job_id := some "b094" }

/-! ## Decision slice of `app/main.py::process_invoice` -/

/-- A heuristic extraction result tuple `(value, confidence, reason)` for a
string-valued field. -/
structure StrResult where
  value : Option String
  conf : ℚ
  reason : String
deriving Repr, DecidableEq

/-- A heuristic extraction result tuple for a float-valued field. -/
structure QResult where
  value : Option ℚ
  conf : ℚ
  reason : String
deriving Repr, DecidableEq

/-- A batched external-model response (the parsed JSON dict): one optional
value per field; an absent or falsy value leaves the heuristic result in
place, exactly like an absent key. -/
structure LLMResult where
  invoice_id : Option String := none
  invoice_date : Option String := none
  total_amount : Option ℚ := none
  vendor_name : Option String := none
  amount_tax : Option ℚ := none
deriving Repr, DecidableEq, Inhabited

/-- Quick confidence `0.2 + 0.7 * min(conf, found, found)` computed by the
early-exit check for a string-valued field (`main.py` lines 296-321). -/
def quickConfStr (r : StrResult) : ℚ :=
  let ind : ℚ := if truthyStr r.value then 1.0 else 0.0
  0.2 + 0.7 * min r.conf (min ind ind)

/-- Quick confidence for a float-valued field. -/
def quickConfQ (r : QResult) : ℚ :=
  let ind : ℚ := if truthyQ r.value then 1.0 else 0.0
  0.2 + 0.7 * min r.conf (min ind ind)

/-- Inputs of the LLM-fallback decision slice of `process_invoice`:
post-heuristic field results, context flags, the per-field confidences
previously computed by `compute_field_confidence`, the timing dict, and
oracles for the responses of the two possible external-model calls. -/
structure PipelineIn where
  invoiceId : StrResult
  invoiceDate : StrResult
  totalAmount : QResult
  vendorName : StrResult
  taxAmount : QResult
  blocksNonempty : Bool
  budgetOK : Bool
  canProcessLLM : Bool
  earlyLLM : Option LLMResult
  batchLLM : Option LLMResult
  confInvoiceId : ℚ
  confInvoiceDate : ℚ
  confTotalAmount : ℚ
  confVendorName : ℚ
  confAmountTax : ℚ
  timings : Option (List (String × ℚ))

/-- Outputs of the decision slice: updated results, the batched field list,
the number of external-model calls issued, and the total-amount confidence
and source after reconciliation. -/
structure PipelineOut where
  invoiceId : StrResult
  invoiceDate : StrResult
  totalAmount : QResult
  vendorName : StrResult
  taxAmount : QResult
  fieldsToExtract : List String
  llmCalls : ℕ
  llmUsed : Bool
  confTotalAmount : ℚ
  sourceTotalAmount : Option String

/-- `re.sub(r'[^\d]', '', s)`: keep only ASCII digits. -/
def digitsOf (s : String) : String := ⟨s.data.filter Char.isDigit⟩

/-- Python `int()` truncation toward zero on the rational model
(t-division of numerator by denominator). -/
def pyTrunc (q : ℚ) : ℤ := Int.tdiv q.num q.den

/-- Python `str()` of an integer. -/
def pyIntStr (z : ℤ) : String :=
  if z < 0 then "-" ++ toString z.natAbs else toString z.natAbs

/-- The `total_amount` reconciliation block of the batched-LLM update
(`app/main.py` lines 496-520): given the (possibly already LLM-updated)
invoice id, the current heuristic total result, the field's current
confidence and a truthy numeric LLM total, return the new total result,
confidence, and source tag (`some "llm"` on acceptance, `none` when the
heuristic is retained). -/
def reconcileLLMTotal (invoiceIdVal : Option String) (heurTotal : QResult)
    (prevConf : ℚ) (llmTotal : ℚ) : QResult × ℚ × Option String :=
  let accept : QResult × ℚ × Option String :=
    (⟨some llmTotal, 0.75, "LLM extraction"⟩, min 0.85 (prevConf + 0.2),
      some "llm")
  if truthyStr invoiceIdVal then
    let inv_id_clean := digitsOf (invoiceIdVal.getD "")
    let total_int_str := pyIntStr (pyTrunc llmTotal)
    if total_int_str = inv_id_clean ∨
        (inv_id_clean ≠ "" ∧ strContains inv_id_clean total_int_str = true) then
      (heurTotal, prevConf, none)
    else if llmTotal > 1000000 then (heurTotal, prevConf, none)
    else accept
  else accept

/-- `heuristic_success`: how many of the four required fields the
heuristics produced (`is not None`). -/
def heuristicSuccess (st : PipelineIn) : ℕ :=
  (if st.invoiceId.value ≠ none then 1 else 0) +
  (if st.invoiceDate.value ≠ none then 1 else 0) +
  (if st.totalAmount.value ≠ none then 1 else 0) +
  (if st.vendorName.value ≠ none then 1 else 0)

/-- `early_llm_fields`: required fields with falsy values. -/
def earlyFields (st : PipelineIn) : List String :=
  (if ¬ truthyStr st.invoiceId.value then ["invoice_id"] else []) ++
  (if ¬ truthyStr st.invoiceDate.value then ["invoice_date"] else []) ++
  (if ¬ truthyQ st.totalAmount.value then ["total_amount"] else []) ++
  (if ¬ truthyStr st.vendorName.value then ["vendor_name"] else [])

/-- The early external call fires when heuristics found fewer than two
fields, there are OCR blocks, some field is missing, and the LLM budget
allows it. -/
def doEarlyCall (st : PipelineIn) : Prop :=
  heuristicSuccess st < 2 ∧ st.blocksNonempty = true ∧
    earlyFields st ≠ [] ∧ st.budgetOK = true

instance (st : PipelineIn) : Decidable (doEarlyCall st) := by
  unfold doEarlyCall; infer_instance

/-- The four required-field results after the early-LLM branch. -/
def postEarly (st : PipelineIn) :
    StrResult × StrResult × QResult × StrResult :=
  if doEarlyCall st then
    match st.earlyLLM with
    | some r =>
      (if truthyStr r.invoice_id then
          ⟨r.invoice_id, 0.7, "Early LLM extraction"⟩ else st.invoiceId,
       if truthyStr r.invoice_date then
          ⟨r.invoice_date, 0.7, "Early LLM extraction"⟩ else st.invoiceDate,
       if truthyQ r.total_amount then
          ⟨r.total_amount, 0.7, "Early LLM extraction"⟩ else st.totalAmount,
       if truthyStr r.vendor_name then
          ⟨r.vendor_name, 0.7, "Early LLM extraction"⟩ else st.vendorName)
    | none => (st.invoiceId, st.invoiceDate, st.totalAmount, st.vendorName)
  else (st.invoiceId, st.invoiceDate, st.totalAmount, st.vendorName)

/-- `all_high_conf`: every required field's quick confidence is ≥ 0.85
(computed on the post-early results, like the code does). -/
def allHighConf (i d : StrResult) (t : QResult) (v : StrResult) : Prop :=
  quickConfStr i ≥ 0.85 ∧ quickConfQ t ≥ 0.85 ∧
    quickConfStr d ≥ 0.85 ∧ quickConfStr v ≥ 0.85

instance (i d : StrResult) (t : QResult) (v : StrResult) :
    Decidable (allHighConf i d t v) := by
  unfold allHighConf; infer_instance

/-- `fields_to_extract`: batched LLM fields, collected only when the
early-exit does not apply, in source order, via `should_use_llm`. -/
def fieldsToExtractOf (st : PipelineIn) : List String :=
  let (ri, rd, rt, rv) := postEarly st
  if allHighConf ri rd rt rv then []
  else
    (if (should_use_llm st.confInvoiceId "invoice_id" true st.timings
        (ri.value = none)).1 then ["invoice_id"] else []) ++
    (if (should_use_llm st.confInvoiceDate "invoice_date" true st.timings
        (rd.value = none)).1 then ["invoice_date"] else []) ++
    (if (should_use_llm st.confTotalAmount "total_amount" true st.timings
        (rt.value = none)).1 then ["total_amount"] else []) ++
    (if (should_use_llm st.confVendorName "vendor_name" true st.timings
        (rv.value = none)).1 then ["vendor_name"] else []) ++
    (if (should_use_llm st.confAmountTax "amount_tax" false st.timings
        (st.taxAmount.value = none)).1 then ["amount_tax"] else [])

/-- The LLM-fallback decision slice of `process_invoice`
(`app/main.py` lines 261-552): early LLM fallback, early-exit check,
batched trigger collection, backpressure gate, batched call and
reconciliation.  External-model calls are counted in `llmCalls`. -/
def runLLMPhase (st : PipelineIn) : PipelineOut :=
  let (ri, rd, rt, rv) := postEarly st
  let earlyCalls : ℕ := if doEarlyCall st then 1 else 0
  let fields := fieldsToExtractOf st
  if h : fields = [] then
    ⟨ri, rd, rt, rv, st.taxAmount, fields, earlyCalls, false,
      st.confTotalAmount, none⟩
  else if st.canProcessLLM then
    match st.batchLLM with
    | some r =>
      let r2i := if truthyStr r.invoice_id then
        (⟨r.invoice_id, 0.75, "LLM extraction"⟩ : StrResult) else ri
      let r2d := if truthyStr r.invoice_date then
        (⟨r.invoice_date, 0.75, "LLM extraction"⟩ : StrResult) else rd
      let (r2t, conf2t, src2t) :=
        if truthyQ r.total_amount then
          reconcileLLMTotal r2i.value rt st.confTotalAmount
            (r.total_amount.getD 0)
        else (rt, st.confTotalAmount, none)
      let r2v := if truthyStr r.vendor_name then
        (⟨r.vendor_name, 0.75, "LLM extraction"⟩ : StrResult) else rv
      let r2x := if truthyQ r.amount_tax then
        (⟨r.amount_tax, 0.75, "LLM extraction"⟩ : QResult) else st.taxAmount
      ⟨r2i, r2d, r2t, r2v, r2x, fields, earlyCalls + 1, true, conf2t, src2t⟩
    | none =>
      ⟨ri, rd, rt, rv, st.taxAmount, fields, earlyCalls + 1, false,
        st.confTotalAmount, none⟩
  else
    ⟨ri, rd, rt, rv, st.taxAmount, fields, earlyCalls, false,
      st.confTotalAmount, none⟩

/-! ## Validation flags (`app/main.py` end of `process_invoice` and
`verify_corrections`) -/

/-- The validation flags derived after canonicalization
(`main.py` lines 645-649) and re-derived after corrections
(lines 885-897). -/
structure ValidationFlags where
  missing_invoice_id : Bool
  missing_total : Bool
  missing_vendor_name : Bool
  missing_date : Bool
  is_invalid : Bool
deriving Repr, DecidableEq, Inhabited

/-- `not v or v.strip() == ""` for an optional string field. -/
def missingStrField : Option String → Bool
  | none => true
  | some s => s = "" || pyStrip s = ""

/-- Derive the validation flags from the four field values:
`is_invalid = missing_invoice_id or missing_total or missing_vendor_name
or missing_date`. -/
def deriveFlags (invoice_id : Option String) (total_amount : Option ℚ)
    (vendor_name invoice_date : Option String) : ValidationFlags :=
  let mi := missingStrField invoice_id
  let mt := total_amount.isNone
  let mv := missingStrField vendor_name
  let md := missingStrField invoice_date
  ⟨mi, mt, mv, md, mi || mt || mv || md⟩

/-- The slice of the stored result dict touched by `verify_corrections`. -/
structure ResultDict where
  invoice_id : Option String
  invoice_date : Option String
  total_amount : Option ℚ
  vendor_name : Option String
  vendor_id : Option String
  currency : Option String
  flags : ValidationFlags
deriving Repr, DecidableEq

/-- A single user correction: the corrected field and its new value
(canonicalized per field inside `verify_corrections`). -/
inductive Correction where
  | invoiceId (v : Option String)
  | invoiceDate (v : String)
  | totalAmount (v : String)
  | vendorName (v : String)
  | currencyVal (v : String)
deriving Repr, DecidableEq

/-- Apply one correction: assign, then re-canonicalize date / amount /
currency / vendor exactly as `verify_corrections` does.  The vendor
canonicalizer also rewrites `vendor_id`. -/
def applyCorrection (canonDate : String → Option String)
    (canonCur : String → Option String) (canonAmt : String → Option ℚ)
    (canonVendor : String → Option String × Option String)
    (rd : ResultDict) : Correction → ResultDict
  | .invoiceId v => { rd with invoice_id := v }
  | .invoiceDate v => { rd with invoice_date := canonDate v }
  | .totalAmount v => { rd with total_amount := canonAmt v }
  | .vendorName v =>
    let (vid, vname) := canonVendor v
    { rd with vendor_name := vname, vendor_id := vid }
  | .currencyVal v => { rd with currency := canonCur v }

/-- The `verify_corrections` endpoint slice: apply every correction, then
recompute the `missing_*` / `is_invalid` flags from the corrected values. -/
def verifyCorrections (canonDate : String → Option String)
    (canonCur : String → Option String) (canonAmt : String → Option ℚ)
    (canonVendor : String → Option String × Option String)
    (rd : ResultDict) (cs : List Correction) : ResultDict :=
  let rd2 := cs.foldl (applyCorrection canonDate canonCur canonAmt canonVendor) rd
  { rd2 with flags := (deriveFlags rd2.invoice_id rd2.total_amount
      rd2.vendor_name rd2.invoice_date) }

/-! ## `app/utils.py` and `app/heuristics.py`: total-amount extraction -/

/-- `app/utils.py::normalize_text`, one character: dash variants to `-`,
NBSP / newlines to space (NFKC is the identity on the ASCII data of this
development). -/
def normalizeChar (c : Char) : Char :=
  if c = '–' ∨ c = '—' then '-'
  else if c = ' ' then ' '
  else if c = '\n' ∨ c = '\r' then ' '
  else c

/-- Zero-width characters removed by `normalize_text`. -/
def isZeroWidth (c : Char) : Bool :=
  (0x200b ≤ c.toNat && c.toNat ≤ 0x200d) || c.toNat = 0xFEFF

/-- Collapse whitespace runs to a single space (`re.sub(r'\s+', ' ', s)`). -/
def collapseWs : Bool → List Char → List Char
  | _, [] => []
  | prevWs, c :: cs =>
    if isPyWs c then
      if prevWs then collapseWs true cs else ' ' :: collapseWs true cs
    else c :: collapseWs false cs

/-- `app/utils.py::normalize_text`. -/
def normalize_text (s : String) : String :=
  pyStrip ⟨collapseWs false
    ((s.data.map normalizeChar).filter (fun c => ! isZeroWidth c))⟩

/-- Take exactly `n` leading digits. -/
def takeDigits : ℕ → List Char → Option (List Char × List Char)
  | 0, cs => some ([], cs)
  | n + 1, c :: cs =>
    if c.isDigit then (takeDigits n cs).map (fun p => (c :: p.1, p.2)) else none
  | _ + 1, [] => none

/-- A `[,\s]` thousands separator. -/
def isSepChar (c : Char) : Bool := c = ',' || isPyWs c

/-- The `(?!\S)` lookahead: end of string or whitespace next. -/
def lookaheadOk : List Char → Bool
  | [] => true
  | c :: _ => isPyWs c

/-- The mandatory decimal tail of `AMOUNT_RELAXED` — a dot or comma, then
one or two digits (greedy), then the no-nonspace lookahead. -/
def matchDecimalEnd : List Char → Option (List Char × List Char)
  | c :: cs =>
    if c = '.' ∨ c = ',' then
      match cs with
      | d1 :: d2 :: rest =>
        if d1.isDigit then
          if d2.isDigit ∧ lookaheadOk rest then some ([c, d1, d2], rest)
          else if lookaheadOk (d2 :: rest) then some ([c, d1], d2 :: rest)
          else none
        else none
      | [d1] => if d1.isDigit then some ([c, d1], []) else none
      | [] => none
    else none
  | [] => none

/-- Zero or more separator-plus-three-digit groups followed by the decimal
tail, greedy with backtracking over the number of groups (fuel bounds the
recursion). -/
def matchGroupsThenDecimal : ℕ → List Char → Option (List Char × List Char)
  | 0, _ => none
  | fuel + 1, cs =>
    match cs with
    | s :: rest =>
      if isSepChar s then
        match takeDigits 3 rest with
        | some (d3, rest2) =>
          match matchGroupsThenDecimal fuel rest2 with
          | some (consumed, fin) => some (s :: (d3 ++ consumed), fin)
          | none => matchDecimalEnd cs
        | none => matchDecimalEnd cs
      else matchDecimalEnd cs
    | [] => none

/-- One attempt of `AMOUNT_RELAXED` anchored at the current position:
optional sign, 1–3 digits (greedy), groups, decimal tail, lookahead. -/
def matchRelaxedHere (cs : List Char) : Option (List Char × List Char) :=
  let sc : List Char × List Char :=
    match cs with
    | c :: r => if c = '-' ∨ c = '+' then ([c], r) else ([], cs)
    | [] => ([], [])
  let tryD : ℕ → Option (List Char × List Char) := fun d =>
    match takeDigits d sc.2 with
    | some (ds, r2) =>
      match matchGroupsThenDecimal (r2.length + 1) r2 with
      | some (gs, fin) => some (sc.1 ++ ds ++ gs, fin)
      | none => none
    | none => none
  match tryD 3 with
  | some x => some x
  | none =>
    match tryD 2 with
    | some x => some x
    | none => tryD 1

/-- `AMOUNT_RELAXED.finditer`: left-to-right scan honouring the
no-nonspace lookbehind (`ok` = previous character was whitespace or start). -/
def relaxedScanGo : ℕ → Bool → List Char → List (List Char)
  | 0, _, _ => []
  | _, _, [] => []
  | fuel + 1, ok, c :: cs =>
    if ok then
      match matchRelaxedHere (c :: cs) with
      | some (m, rest) => m :: relaxedScanGo fuel false rest
      | none => relaxedScanGo fuel (isPyWs c) cs
    else relaxedScanGo fuel (isPyWs c) cs

/-- All `AMOUNT_RELAXED` matches (group 1) in a string. -/
def relaxedFindAll (s : String) : List String :=
  (relaxedScanGo (s.data.length + 1) true s.data).map (fun l => ⟨l⟩)

/-- Numeric value of a digit string. -/
def natOfDigits (cs : List Char) : ℕ :=
  cs.foldl (fun a c => 10 * a + (c.toNat - 48)) 0

/-- Python `float(str)` for the cleaned strings of `parse_amount_str`
(optional sign, digits with at most one dot), exact over `ℚ`. -/
def pyFloatParse (cs : List Char) : Option ℚ :=
  let sr : Bool × List Char :=
    match cs with
    | '-' :: r => (true, r)
    | '+' :: r => (false, r)
    | _ => (false, cs)
  let rest := sr.2
  if rest = [] then none
  else
    let ipart := rest.takeWhile (· ≠ '.')
    let rest2 := rest.drop ipart.length
    match rest2 with
    | [] =>
      if ipart ≠ [] ∧ ipart.all Char.isDigit then
        some (if sr.1 then -(natOfDigits ipart : ℚ) else (natOfDigits ipart : ℚ))
      else none
    | '.' :: fpart =>
      if fpart.contains '.' then none
      else if ipart ++ fpart = [] then none
      else if ipart.all Char.isDigit ∧ fpart.all Char.isDigit then
        let v : ℚ := (natOfDigits ipart : ℚ) +
          (natOfDigits fpart : ℚ) / (10 : ℚ) ^ fpart.length
        some (if sr.1 then -v else v)
      else none
    | _ => none

/-- One or two digits followed by a word boundary, anchored at the front
of `cs` (greedy: two digits preferred). -/
def oneTwoDigitsBoundary : List Char → Bool
  | d1 :: rest1 =>
    if ! d1.isDigit then false
    else
      match rest1 with
      | d2 :: rest2 =>
        if d2.isDigit then
          match rest2 with
          | [] => true
          | r :: _ => ! isWordChar r
        else ! isWordChar d2
      | [] => true
  | [] => false

/-- Search for a comma followed by exactly three digits and a word
boundary (the thousands-grouping test of `parse_amount_str`). -/
def commaThreeBoundary (cs : List Char) : Bool :=
  (List.range cs.length).any fun i =>
    match cs.drop i with
    | ',' :: d1 :: d2 :: d3 :: rest =>
      d1.isDigit && d2.isDigit && d3.isDigit &&
        (match rest with
         | [] => true
         | r :: _ => ! isWordChar r)
    | _ => false

/-- Search for a comma followed by one or two digits and a word boundary
(the decimal-comma test of `parse_amount_str`). -/
def commaOneTwoBoundary (cs : List Char) : Bool :=
  (List.range cs.length).any fun i =>
    match cs.drop i with
    | ',' :: rest => oneTwoDigitsBoundary rest
    | _ => false

/-- Search for digits, a comma, one or two digits and a word boundary
(the comma-decimal bonus test of the scoring loop). -/
def digitCommaDecimalB (cs : List Char) : Bool :=
  (List.range cs.length).any fun i =>
    match cs.drop i with
    | d0 :: ',' :: rest => d0.isDigit && oneTwoDigitsBoundary rest
    | _ => false

/-- Index of the last occurrence of `c` (callers guarantee presence). -/
def lastIdxOf (cs : List Char) (c : Char) : ℕ :=
  cs.length - 1 - List.indexOf c cs.reverse

/-- `app/utils.py::parse_amount_str`: robust European/US amount parsing. -/
def parse_amount_str (s : String) : Option ℚ :=
  if s = "" then none
  else
    let t := pyStripList s.data
    let t_clean := t.filter (fun c => c.isDigit || c = ',' || c = '.' || c = '-')
    if t_clean = [] then none
    else
      let hasDot := t_clean.contains '.'
      let hasComma := t_clean.contains ','
      let t2 :=
        if hasDot ∧ hasComma then
          if lastIdxOf t_clean ',' > lastIdxOf t_clean '.' then
            (t_clean.filter (· ≠ '.')).map (fun c => if c = ',' then '.' else c)
          else t_clean.filter (· ≠ ',')
        else
          if t_clean.count ',' > 1 ∨ commaThreeBoundary t_clean then
            t_clean.filter (· ≠ ',')
          else if commaOneTwoBoundary t_clean ∧ ¬ hasDot then
            t_clean.map (fun c => if c = ',' then '.' else c)
          else t_clean.filter (· ≠ ',')
      let t3 := t2.dropWhile (fun c => ! (c.isDigit || c = '-'))
      let t4 := (t3.reverse.dropWhile (fun c => ! (c.isDigit || c = '.'))).reverse
      pyFloatParse t4

/-- An OCR block (`app/models.py::OCRBlock`), bbox as `(x1, y1, x2, y2)`. -/
structure OCRBlock where
  text : String
  bbox : ℚ × ℚ × ℚ × ℚ
  confidence : ℚ
  engine : String := "pdfplumber"
deriving Repr, DecidableEq

def OCRBlock.y1 (b : OCRBlock) : ℚ := b.bbox.2.1

def OCRBlock.y2 (b : OCRBlock) : ℚ := b.bbox.2.2.2

/-- `heuristics.py::TOTAL_LABELS`. -/
def TOTAL_LABELS : List String :=
  ["total", "amount due", "grand total", "balance due",
   "total geral", "total a pagar", "importe total", "total factura"]

def joinSpace (l : List String) : String := String.intercalate " " l

/-- `app/utils.py::label_matches`: separator-normalized token join, exact
containment, else rapidfuzz `partial_ratio` (abstracted as `pr`) against
the threshold. -/
def label_matches (pr : String → String → ℚ) (text label : String)
    (threshold : ℚ) : Bool :=
  let t : String := ⟨(pyLower text).data.map
    (fun c => if c = ':' ∨ c = '.' ∨ c = '-' then ' ' else c)⟩
  let text_joined := joinSpace (pySplitWs t)
  let label_joined := joinSpace (pySplitWs (pyLower label))
  strContains text_joined label_joined || pr text_joined label_joined ≥ threshold

/-- `\b` at position `i` of `cs`: word-character status changes. -/
def boundaryAt (cs : List Char) (i : ℕ) : Bool :=
  let w1 := if i = 0 then false else isWordChar (cs.getD (i - 1) ' ')
  let w2 := isWordChar (cs.getD i ' ')
  w1 != w2

/-- `re.search(r'\b' + re.escape(needle) + r'\b', hay)`. -/
def wordBoundarySub (hay needle : List Char) : Bool :=
  needle ≠ [] &&
    ((List.range (hay.length + 1)).any fun i =>
      needle.isPrefixOf (hay.drop i) && boundaryAt hay i &&
        boundaryAt hay (i + needle.length))

/-- One label test of `heuristics.py::find_blocks_with_label`: whole word,
else substring-with-boundary, else fuzzy `label_matches` at threshold 75. -/
def labelHit (pr : String → String → ℚ) (text_norm : String)
    (label : String) : Bool :=
  let ll := pyLower label
  if (pySplitWs text_norm).contains ll then true
  else if strContains text_norm ll then wordBoundarySub text_norm.data ll.data
  else label_matches pr text_norm ll 75

/-- `heuristics.py::find_blocks_with_label`. -/
def find_blocks_with_label (pr : String → String → ℚ)
    (blocks : List OCRBlock) (labels : List String) : List OCRBlock :=
  blocks.filter (fun b =>
    let tn := pyLower (normalize_text b.text)
    labels.any (labelHit pr tn))

/-- `max(b.bbox[3] for b in blocks) if blocks else 1000`. -/
def pageHeight (blocks : List OCRBlock) : ℚ :=
  match blocks with
  | [] => 1000
  | b :: bs => bs.foldl (fun m x => max m x.y2) b.y2

/-- Currency-symbol search of the candidate loop
(`re.search(r'(₹|\$|USD|INR|€|EUR|£|GBP|Rs\.)', raw, re.I)`). -/
def hasCurrencySym (s : String) : Bool :=
  let l := pyLower s
  ["₹", "$", "usd", "inr", "€", "eur", "£", "gbp", "rs."].any
    (fun t => strContains l t)

/-- Maximal digit runs of length 6–12 delimited by word boundaries
(the digit-run findall of the invoice-id detection); `prevOk` records whether the
character before the current run was a non-word character or the start. -/
def digitRunsGo : Bool → List Char → List Char → List (List Char)
  | prevOk, cur, [] =>
    if cur ≠ [] ∧ prevOk ∧ 6 ≤ cur.length ∧ cur.length ≤ 12 then
      [cur.reverse] else []
  | prevOk, cur, c :: cs =>
    if c.isDigit then digitRunsGo prevOk (c :: cur) cs
    else
      (if cur ≠ [] ∧ prevOk ∧ ¬ isWordChar c ∧ 6 ≤ cur.length ∧
          cur.length ≤ 12 then [cur.reverse] else []) ++
        digitRunsGo (! isWordChar c) [] cs

def digitRuns612 (s : String) : List String :=
  (digitRunsGo true [] s.data).map (fun l => ⟨l⟩)

/-- `str(int(float(digits)))` on an all-digit string: strip leading zeros. -/
def stripLeadingZeros (s : String) : String :=
  let t := s.data.dropWhile (· = '0')
  if t = [] then "0" else ⟨t⟩

/-- The invoice-id digit strings collected by `extract_total_amount` for
candidate exclusion: the cleaned id, its `str(int(float(...)))` form, 7+
digit runs from invoice-label blocks, and 7–12 digit tokens in the top 300
pixels. -/
def invoiceIdNumbers (blocks : List OCRBlock) (invoice_id : Option String) :
    List String :=
  let base :=
    if truthyStr invoice_id then
      let c := digitsOf (invoice_id.getD "")
      if c ≠ "" then [c, stripLeadingZeros c] else []
    else []
  let fromLabels := blocks.flatMap (fun b =>
    let tl := pyLower (normalize_text b.text)
    if ["invoice no", "invoice number", "invoice #", "inv no",
        "inv #"].any (fun lab => strContains tl lab) then
      ((digitRuns612 b.text).filter (fun r => r.length ≥ 7))
    else [])
  let fromTop := blocks.flatMap (fun b =>
    if b.y1 < 300 then
      let tc := pyStrip b.text
      if 7 ≤ tc.length ∧ tc.length ≤ 12 ∧ tc.data.all Char.isDigit then
        [tc] else []
    else [])
  base ++ fromLabels ++ fromTop

/-- `invoice_id_numeric = float(re.sub(r'\D', '', invoice_id))` when the id
and its digits are nonempty (exact over `ℚ`). -/
def idNumericOf (invoice_id : Option String) : Option ℚ :=
  if truthyStr invoice_id then
    let d := digitsOf (invoice_id.getD "")
    if d ≠ "" then some (natOfDigits d.data : ℚ) else none
  else none

/-- A total-amount candidate: `(raw, parsed, block, has_currency_symbol,
bottom_frac, near_label)`. -/
structure AmountCand where
  raw : String
  val : ℚ
  block : OCRBlock
  has_sym : Bool
  bottom_frac : ℚ
  near_label : Bool
deriving Repr, DecidableEq

/-- The candidates one block contributes (the `AMOUNT_RELAXED.finditer`
loop body of `extract_total_amount`). -/
def blockCands (label_ys : List ℚ) (page_height : ℚ) (b : OCRBlock) :
    List AmountCand :=
  let text := normalize_text b.text
  if text = "" then []
  else
    let near_label := label_ys.any (fun ly => |ly - b.y1| < 100)
    (relaxedFindAll text).filterMap (fun m =>
      let raw := pyStrip m
      if raw = "" then none
      else
        match parse_amount_str raw with
        | none => none
        | some parsed =>
          if parsed = 0 then none
          else
            let bottom_frac := if page_height > 0 then b.y2 / page_height else 0
            some ⟨raw, parsed, b, hasCurrencySym raw, bottom_frac, near_label⟩)

/-- Priority blocks (bottom 60 % of the page or within 150 px of a total
label) are scanned first; at most 50 other blocks follow. -/
def orderedBlocks (label_ys : List ℚ) (page_height : ℚ)
    (blocks : List OCRBlock) : List OCRBlock :=
  let isPrio : OCRBlock → Bool := fun b =>
    (if page_height > 0 then b.y1 / page_height else 0) ≥ 0.4 ||
      label_ys.any (fun ly => |ly - b.y1| < 150)
  blocks.filter isPrio ++ (blocks.filter (fun b => ! isPrio b)).take 50

/-- The outright-rejection filter of the scoring loop: a candidate survives
iff it is not the raw invoice id, not numerically the invoice id (±0.001),
not above the 1,000,000 ceiling, positive, and its integer form neither is
a member of nor shares a ≥6-digit containment with the collected invoice-id
digit strings. -/
def keepCand (invoice_id : Option String) (idNumeric : Option ℚ)
    (idNumbers : List String) (c : AmountCand) : Bool :=
  let val_str := pyIntStr (pyTrunc c.val)
  (! (truthyStr invoice_id &&
      pyStrip c.raw == pyStrip (invoice_id.getD ""))) &&
  (! (match idNumeric with
      | some q => |c.val - q| < 0.001
      | none => false : Bool)) &&
  decide (¬ c.val > 1000000) &&
  decide (¬ c.val ≤ 0) &&
  (! idNumbers.contains val_str) &&
  (! (decide (idNumbers ≠ []) && decide (c.val.den = 1) &&
      idNumbers.any (fun inv =>
        (strContains val_str inv || strContains inv val_str) &&
          decide (val_str.length ≥ 6))))

/-- `heuristics.py` scoring constants. -/
def BOTTOM_PAGE_RATIO : ℚ := 0.40

def PREFER_CURRENCY_SYMBOL : Bool := true

/-- The additive score of a surviving candidate; `log10q` abstracts
`math.log10` (the only non-rational operation of the routine). -/
def scoreCand (log10q : ℚ → ℚ) (page_height : ℚ) (c : AmountCand) : ℚ :=
  (if c.near_label then 5.0 else 0) +
  (if c.has_sym && PREFER_CURRENCY_SYMBOL then 3.0 else 0) +
  (if page_height ≠ 0 ∧ c.bottom_frac ≠ 0 then
    (if c.bottom_frac ≥ 1 - BOTTOM_PAGE_RATIO then 2.5
     else if c.bottom_frac ≥ 0.5 then 1.0
     else c.bottom_frac * 0.3)
   else 0) +
  (if c.val > 0 then min (log10q (max c.val 1) * 0.3) 2.0 else 0) +
  (if strContains c.raw "." ∨
      (strContains c.raw "," ∧ digitCommaDecimalB c.raw.data) then 1.5
   else 0) -
  (if (! c.has_sym) ∧
      (c.val ≥ 1000000 ∨ (c.val ≥ 100000 ∧ c.val.den = 1)) then 3.0 else 0)

/-- First candidate attaining the maximal score (head of Python's stable
descending sort). -/
def pickBest (scored : List (ℚ × AmountCand)) : Option (ℚ × AmountCand) :=
  scored.foldl (fun acc x =>
    match acc with
    | none => some x
    | some a => if x.1 > a.1 then some x else some a) none

/-- The `\s*[-+]?\d` tail required after a currency token by
`AMOUNT_STRICT`. -/
def strictTail (cs : List Char) : Bool :=
  match cs.dropWhile isPyWs with
  | c :: r2 =>
    if c = '-' ∨ c = '+' then
      match r2 with
      | d :: _ => d.isDigit
      | [] => false
    else c.isDigit
  | [] => false

/-- `AMOUNT_STRICT.search`: a currency token (with optional dot after
`rs`), whitespace, an optional sign and a digit — the remaining groups of
the pattern are optional and cannot fail. -/
def amountStrictFound (s : String) : Bool :=
  let l := (pyLower s).data
  (List.range (l.length + 1)).any fun i =>
    let t := l.drop i
    (["₹", "$", "usd", "inr", "€", "eur", "£", "gbp"].any fun tok =>
      tok.data.isPrefixOf t && strictTail (t.drop tok.data.length)) ||
    ("rs".data.isPrefixOf t &&
      (match t.drop 2 with
       | '.' :: r2 => strictTail r2 || strictTail ('.' :: r2)
       | r => strictTail r))

/-- Round half to even (the tie behaviour of Python's format rounding). -/
def roundHalfEven (q : ℚ) : ℤ :=
  let f := ⌊q⌋
  let r := q - f
  if r < 1/2 then f
  else if r > 1/2 then f + 1
  else if f % 2 = 0 then f else f + 1

/-- Python one-decimal fixed-point formatting, modelled on the rational
value. -/
def fmtQ1 (q : ℚ) : String :=
  let n := roundHalfEven (q * 10)
  let sign := if n < 0 then "-" else ""
  let m := n.natAbs
  sign ++ toString (m / 10) ++ "." ++ toString (m % 10)

/-- `app/heuristics.py::extract_total_amount`.  `pr` abstracts
`rapidfuzz.fuzz.partial_ratio` (used only in the fuzzy fallback of label
matching), `log10q` abstracts `math.log10`. -/
def extract_total_amount (pr : String → String → ℚ) (log10q : ℚ → ℚ)
    (blocks : List OCRBlock) (invoice_id : Option String := none) :
    Option ℚ × ℚ × String :=
  if blocks = [] then (none, 0.0, "No blocks available")
  else
    let page_height := pageHeight blocks
    let idNums := invoiceIdNumbers blocks invoice_id
    let label_ys := (find_blocks_with_label pr blocks TOTAL_LABELS).map (·.y1)
    let candidates :=
      (orderedBlocks label_ys page_height blocks).flatMap
        (blockCands label_ys page_height)
    let scored :=
      (candidates.filter (keepCand invoice_id (idNumericOf invoice_id)
        idNums)).map (fun c => (scoreCand log10q page_height c, c))
    match pickBest scored with
    | none => (none, 0.0, "No total amount found")
    | some (best_score, best) =>
      let ocr_conf := best.block.confidence
      let label_blocks := find_blocks_with_label pr blocks TOTAL_LABELS
      let label_score : ℚ :=
        if label_blocks.any (fun lb => |lb.y1 - best.block.y1| < 100) then 1.0
        else 0.5
      let label_score := if label_blocks ≠ [] then max label_score 0.7
        else label_score
      let regex_score : ℚ := if amountStrictFound best.raw then 1.0 else 0.6
      let confidence :=
        max 0 (min 1 (0.2 + 0.7 * min ocr_conf (min label_score regex_score)))
      (some best.val, confidence,
        "scored(" ++ fmtQ1 best_score ++ "): " ++ best.raw)

/-- The three OCR blocks of the repository's own regression test
`tests/test_total_fix.py::test_total_excludes_invoice_id`. -/
def c2FailBlocks : List OCRBlock :=
  [⟨"Invoice no: 27301261", (0, 0, 200, 20), 9/10, "pdfplumber"⟩,
   ⟨"Total: $544,46", (0, 2500, 200, 2520), 9/10, "pdfplumber"⟩,
   ⟨"27301261", (0, 50, 200, 70), 9/10, "pdfplumber"⟩]

/-- A concrete post-heuristic pipeline state in which every required field
was found with heuristic confidence 0.95 (quick confidence 0.865 ≥ 0.85). -/
def c3WitnessIn : PipelineIn :=
  { invoiceId := ⟨some "INV-1", 0.95, "strict regex"⟩,
    invoiceDate := ⟨some "2024-01-01", 0.95, "strict regex"⟩,
    totalAmount := ⟨some (3/2), 0.95, "scored"⟩,
    vendorName := ⟨some "Acme", 0.95, "label"⟩,
    taxAmount := ⟨none, 0, "not found"⟩,
    blocksNonempty := true, budgetOK := true, canProcessLLM := true,
    earlyLLM := some {}, batchLLM := some {},
    confInvoiceId := 0.4, confInvoiceDate := 0.4, confTotalAmount := 0.4,
    confVendorName := 0.4, confAmountTax := 0.4,
    timings := some [("ocr", 20), ("heuristics", 20)] }

end ReXcan

namespace ReXcan

/-! ## Helper lemmas -/

theorem mem_insertSimDesc {x y : String × ℚ} {l : List (String × ℚ)} :
    y ∈ insertSimDesc x l ↔ y = x ∨ y ∈ l := by
  induction l with
  | nil => simp [insertSimDesc]
  | cons a as ih =>
    by_cases h : a.2 ≥ x.2 <;> simp [insertSimDesc, h, ih] <;> tauto

theorem pairwise_insertSimDesc {x : String × ℚ} {l : List (String × ℚ)}
    (h : l.Pairwise (fun a b => b.2 ≤ a.2)) :
    (insertSimDesc x l).Pairwise (fun a b => b.2 ≤ a.2) := by
  induction l with
  | nil => simp [insertSimDesc]
  | cons a as ih =>
    rcases List.pairwise_cons.mp h with ⟨ha, has⟩
    by_cases hx : a.2 ≥ x.2
    · simp only [insertSimDesc, if_pos hx]
      refine List.pairwise_cons.mpr ⟨?_, ih has⟩
      intro y hy
      rcases mem_insertSimDesc.mp hy with rfl | hy
      · exact hx
      · exact ha y hy
    · simp only [insertSimDesc, if_neg hx]
      push_neg at hx
      refine List.pairwise_cons.mpr ⟨?_, h⟩
      intro y hy
      rcases List.mem_cons.mp hy with rfl | hy
      · exact le_of_lt hx
      · exact le_trans (ha y hy) (le_of_lt hx)

theorem mem_foldl_insertSimDesc {y : String × ℚ} :
    ∀ (l acc : List (String × ℚ)),
      y ∈ l.foldl (fun acc x => insertSimDesc x acc) acc ↔ y ∈ acc ∨ y ∈ l := by
  intro l
  induction l with
  | nil => simp
  | cons a as ih =>
    intro acc
    simp only [List.foldl_cons, ih, mem_insertSimDesc, List.mem_cons]
    tauto

theorem mem_sortSimDesc {y : String × ℚ} {l : List (String × ℚ)} :
    y ∈ sortSimDesc l ↔ y ∈ l := by
  unfold sortSimDesc
  rw [mem_foldl_insertSimDesc]
  simp

theorem pairwise_foldl_insertSimDesc :
    ∀ (l acc : List (String × ℚ)),
      acc.Pairwise (fun a b => b.2 ≤ a.2) →
      (l.foldl (fun acc x => insertSimDesc x acc) acc).Pairwise
        (fun a b => b.2 ≤ a.2) := by
  intro l
  induction l with
  | nil => intro acc h; simpa using h
  | cons a as ih =>
    intro acc h
    exact ih _ (pairwise_insertSimDesc h)

theorem pairwise_sortSimDesc (l : List (String × ℚ)) :
    (sortSimDesc l).Pairwise (fun a b => b.2 ≤ a.2) :=
  pairwise_foldl_insertSimDesc l [] (by simp)

/-! ## Claim C1 -/

/-- C1: for every `ocr_conf, label_score, regex_score ∈ [0,1]` and boolean
`llm_agree`, `compute_confidence` equals
`clamp(0, 1, 0.2 + 0.7*min(ocr, label, regex) + (0.1 if llm_agree else 0))`;
in particular `compute_confidence 0.9 1 1 false = 0.83`
(exact rational arithmetic). -/
theorem c1_confidence_formula (o l r : ℚ) (a : Bool)
    (ho : 0 ≤ o ∧ o ≤ 1) (hl : 0 ≤ l ∧ l ≤ 1) (hr : 0 ≤ r ∧ r ≤ 1) :
    compute_confidence o l r a
        = max 0 (min 1 (0.2 + 0.7 * min o (min l r) +
            (if a then (0.1 : ℚ) else 0)))
      ∧ compute_confidence 0.9 1 1 false = 0.83 := by
  constructor
  · norm_num [compute_confidence]
  · norm_num [compute_confidence]

/-- Witness for C1 at `(0.9, 1, 1, false)`. -/
theorem c1_confidence_formula_witness :
    (compute_confidence 0.9 1 1 false
        = max 0 (min 1 (0.2 + 0.7 * min (0.9 : ℚ) (min 1 1) +
            (if false then (0.1 : ℚ) else 0)))
      ∧ compute_confidence 0.9 1 1 false = 0.83) :=
  c1_confidence_formula 0.9 1 1 false ⟨by norm_num, by norm_num⟩
    ⟨by norm_num, by norm_num⟩ ⟨by norm_num, by norm_num⟩

/-! ## Claim C5 -/

/-- C5: `should_use_llm` evaluates its triggers in a fixed order, first match
winning: missing-and-required → `(true, "missing_field")`; else
confidence < 0.5 and required → `(true, "low_conf")`; else
`ocr_time + heuristics_time > 10` and confidence < 0.85 and required →
`(true, "slow_pipeline")`; otherwise `(false, "")` — for every confidence,
timing dict, field name and flags. -/
theorem c5_should_use_llm_trigger_order (confidence : ℚ) (fname : String)
    (is_required : Bool) (t : List (String × ℚ)) (field_missing : Bool) :
    should_use_llm confidence fname is_required (some t) field_missing =
      (if field_missing ∧ is_required then (true, "missing_field")
       else if confidence < 0.5 ∧ is_required then (true, "low_conf")
       else if pipelineOcrTime t + pipelineHeurTime t > 10 ∧ confidence < 0.85
           ∧ is_required then (true, "slow_pipeline")
       else (false, "")) := by
  unfold should_use_llm pipelineOcrTime pipelineHeurTime
  rcases t with _ | ⟨p, ps⟩
  · norm_num [dictGet, pyOrQ]
  · cases is_required <;> simp_all [show (10.0 : ℚ) = 10 by norm_num]

/-! ## Claim C8 -/

/-- C8: `acquire` evicts timestamps older than the window before comparing
the window size with `max_calls`; it appends `now` and returns true when a
slot is free and returns false without further mutation otherwise.  With
`max_calls = 2, window = 60`: acquires at t=0 and t=1 succeed, a third at
t=2 fails with the window still `[0, 1]`, and an acquire at t=62 (both
timestamps aged out) succeeds again. -/
theorem c8_rate_limiter_window (rl : RateLimiter) (now : ℚ) :
    ((rl.calls.dropWhile (fun t => t < now - rl.time_window)).length < rl.max_calls →
        rl.acquire now =
          (true, { rl with calls :=
            rl.calls.dropWhile (fun t => t < now - rl.time_window) ++ [now] }))
  ∧ (¬ (rl.calls.dropWhile (fun t => t < now - rl.time_window)).length < rl.max_calls →
        rl.acquire now =
          (false, { rl with calls :=
            rl.calls.dropWhile (fun t => t < now - rl.time_window) }))
  ∧ (RateLimiter.acquire ⟨2, 60, []⟩ 0 = (true, ⟨2, 60, [0]⟩)
      ∧ RateLimiter.acquire ⟨2, 60, [0]⟩ 1 = (true, ⟨2, 60, [0, 1]⟩)
      ∧ RateLimiter.acquire ⟨2, 60, [0, 1]⟩ 2 = (false, ⟨2, 60, [0, 1]⟩)
      ∧ RateLimiter.acquire ⟨2, 60, [0, 1]⟩ 62 = (true, ⟨2, 60, [62]⟩)) := by
  refine ⟨fun h => ?_, fun h => ?_, by decide⟩
  · simp [RateLimiter.acquire, Nat.not_le.mpr h]
  · simp [RateLimiter.acquire, Nat.le_of_not_lt h]

/-- Witness for C8 at a concrete limiter state. -/
theorem c8_rate_limiter_window_witness :
    RateLimiter.acquire ⟨2, 60, [0, 1]⟩ 62 =
      (true, { max_calls := 2, time_window := 60, calls :=
        ([0, 1] : List ℚ).dropWhile (fun t => t < 62 - 60) ++ [62] }) :=
  (c8_rate_limiter_window ⟨2, 60, [0, 1]⟩ 62).1 (by decide)

/-! ## Claim C6 -/

/-- C6 fails as stated: all four fields non-null but `total_amount = 0.0`
yields no hash — Python `all([...])` tests truthiness, not nullness. -/
theorem c6_counterexample_zero_amount :
    compute_dedupe_hash (fun s => s) (some "v") (some "i") (some 0)
        (some "2024-01-01") = none
      ∧ (some (0 : ℚ)) ≠ none
      ∧ (some "v") ≠ (none : Option String) := by
  refine ⟨by decide, by simp, by simp⟩

/-- C6 (amended): the hash is the SHA-256 of
`vendor ++ "|" ++ invoice ++ "|" ++ total ++ "|" ++ date` exactly when all
four fields are truthy (non-null and non-empty / non-zero), `none`
otherwise; hashing is deterministic, and two records agreeing on the four
identity fields hash identically whatever their other fields are. -/
theorem c6_dedupe_hash_truthy (h : String → String)
    (v i dte : Option String) (t : Option ℚ) (r1 r2 : DedupRecord) :
    ((truthyStr v && truthyStr i && truthyQ t && truthyStr dte) = true →
        compute_dedupe_hash h v i t dte =
          some (h (v.getD "" ++ "|" ++ i.getD "" ++ "|" ++
            pyFloatRepr (t.getD 0) ++ "|" ++ dte.getD "")))
      ∧ ((truthyStr v && truthyStr i && truthyQ t && truthyStr dte) = false →
          compute_dedupe_hash h v i t dte = none)
      ∧ recordDedupeHash h r1 = recordDedupeHash h r1
      ∧ (r1.vendor_id = r2.vendor_id → r1.invoice_id = r2.invoice_id →
          r1.total_amount = r2.total_amount →
          r1.invoice_date = r2.invoice_date →
          recordDedupeHash h r1 = recordDedupeHash h r2) := by
  refine ⟨fun hc => ?_, fun hc => ?_, rfl, fun h1 h2 h3 h4 => ?_⟩
  · simp [compute_dedupe_hash, hc]
  · simp [compute_dedupe_hash, hc]
  · simp [recordDedupeHash, compute_dedupe_hash, h1, h2, h3, h4]

/-- Witness for C6 at concrete truthy and falsy inputs and two records
differing only outside the identity fields. -/
theorem c6_dedupe_hash_truthy_witness :
    compute_dedupe_hash (fun s => s) (some "v") (some "i") (some (3/2))
        (some "2024-01-01") =
      some ((fun s => s) ((some "v").getD "" ++ "|" ++ (some "i").getD "" ++ "|" ++
        pyFloatRepr ((some ((3:ℚ)/2)).getD 0) ++ "|" ++ (some "2024-01-01").getD ""))
    ∧ recordDedupeHash (fun s => s)
        { vendor_id := some "a", invoice_id := some "b", total_amount := some 1,
          invoice_date := some "c", job_id := some "j1", extra := [("k", "x")] }
      = recordDedupeHash (fun s => s)
        { vendor_id := some "a", invoice_id := some "b", total_amount := some 1,
          invoice_date := some "c", job_id := some "j2", extra := [] } :=
  ⟨(c6_dedupe_hash_truthy (fun s => s) (some "v") (some "i") (some "2024-01-01")
      (some (3/2)) ⟨none, none, none, none, none, []⟩
      ⟨none, none, none, none, none, []⟩).1 (by decide),
   (c6_dedupe_hash_truthy (fun s => s) none none none none
      { vendor_id := some "a", invoice_id := some "b", total_amount := some 1,
        invoice_date := some "c", job_id := some "j1", extra := [("k", "x")] }
      { vendor_id := some "a", invoice_id := some "b", total_amount := some 1,
        invoice_date := some "c", job_id := some "j2", extra := [] }).2.2.2
     rfl rfl rfl rfl⟩

/-! ## Claim C7 -/

set_option maxRecDepth 100000 in
/-- C7 fails as stated: with six stored records at similarity 20/21 ≥ 0.95
and one stored record identical to the candidate, `detect_near_duplicates`
reports six entries (no top-5 cap) and does not report the identical record
even though its similarity is 1. -/
theorem c7_counterexample_cap_and_exact :
    (detect_near_duplicates c7cand c7existing).length = 6
      ∧ "ex0" ∉ (detect_near_duplicates c7cand c7existing).map Prod.fst
      ∧ fuzzRatio (pyLower (dedupeCompareStr c7cand))
          (pyLower (dedupeCompareStr c7exact)) / 100 = 1 := by
  refine ⟨by decide, by decide, by decide⟩

set_option maxRecDepth 100000 in
/-- C7 (amended): every stored record with truthy identity fields that is
not field-identical to the candidate is reported iff its similarity is
≥ 0.95 (threshold inclusive); the reported list is sorted descending by
similarity and is not capped by the duplicate check itself; similarity
exactly 0.95 is flagged while 0.94 is not; and the near-duplicate check is
skipped entirely once an exact (hash) duplicate is found. -/
theorem c7_near_duplicates (r : DedupRecord) (existing : List DedupRecord)
    (hr : identityTruthy r = true) :
    (∀ p ∈ detect_near_duplicates r existing, (0.95 : ℚ) ≤ p.2)
  ∧ (∀ ex ∈ existing, identityTruthy ex = true → sameIdentity ex r = false →
      (0.95 : ℚ) ≤ fuzzRatio (pyLower (dedupeCompareStr r))
          (pyLower (dedupeCompareStr ex)) / 100 →
      (ex.job_id.getD "unknown",
        fuzzRatio (pyLower (dedupeCompareStr r))
          (pyLower (dedupeCompareStr ex)) / 100)
        ∈ detect_near_duplicates r existing)
  ∧ (detect_near_duplicates r existing).Pairwise (fun a b => b.2 ≤ a.2)
  ∧ detect_near_duplicates c7bcand [c7bex095] = [("b095", 19/20)]
  ∧ ((19 : ℚ)/20 = 0.95)
  ∧ detect_near_duplicates c7bcand94 [c7bex094] = []
  ∧ (∀ (h : String → String) (hashes : List String)
        (exlist : List DedupRecord),
      (match recordDedupeHash h r with
       | some hh => hashes.contains hh
       | none => false) = true →
      check_duplicates h r hashes (some exlist) = (true, false, [])) := by
  refine ⟨?_, ?_, ?_, by decide, by norm_num, by decide, ?_⟩
  · intro p hp
    rw [detect_near_duplicates, if_neg (by simp [hr]), mem_sortSimDesc] at hp
    obtain ⟨ex, -, hex⟩ := List.mem_filterMap.mp hp
    simp only [nearDupEntry] at hex
    split_ifs at hex with h1 h2 h3
    all_goals cases hex
    exact h3
  · intro ex hex h1 h2 h3
    rw [detect_near_duplicates, if_neg (by simp [hr]), mem_sortSimDesc]
    refine List.mem_filterMap.mpr ⟨ex, hex, ?_⟩
    simp only [nearDupEntry, h1, h2]
    simp [h3]
  · rw [detect_near_duplicates, if_neg (by simp [hr])]
    exact pairwise_sortSimDesc _
  · intro h hashes exlist hex
    cases hh : recordDedupeHash h r with
    | none => rw [hh] at hex; cases hex
    | some s =>
      rw [hh] at hex
      have hex' : hashes.contains s = true := hex
      simp only [check_duplicates, hh]
      rw [hex']
      simp

/-- Witness for C7 at the concrete boundary candidate. -/
theorem c7_near_duplicates_witness :
    (detect_near_duplicates c7bcand [c7bex095]).Pairwise
      (fun a b => b.2 ≤ a.2) :=
  (c7_near_duplicates c7bcand [c7bex095] (by decide)).2.2.1

/-! ## Claim C10 -/

/-- C10: a record with a falsy identity field (zero amount or an empty
string), even though non-null, gets no dedupe hash, yields no
near-duplicates, and is never flagged as an exact or near duplicate. -/
theorem c10_falsy_identity_fields (h : String → String) (r : DedupRecord)
    (hashes : List String) (exlist : List DedupRecord)
    (hnn : r.vendor_id ≠ none ∧ r.invoice_id ≠ none ∧
      r.total_amount ≠ none ∧ r.invoice_date ≠ none)
    (hfalsy : r.total_amount = some 0 ∨ r.vendor_id = some "" ∨
      r.invoice_id = some "" ∨ r.invoice_date = some "") :
    recordDedupeHash h r = none
      ∧ detect_near_duplicates r exlist = []
      ∧ check_duplicates h r hashes (some exlist) = (false, false, []) := by
  have ht : identityTruthy r = false := by
    rcases hfalsy with h0 | h0 | h0 | h0 <;>
      simp [identityTruthy, h0, truthyQ, truthyStr]
  have h1 : recordDedupeHash h r = none := by
    have : (truthyStr r.vendor_id && truthyStr r.invoice_id &&
        truthyQ r.total_amount && truthyStr r.invoice_date) = false := by
      have := ht
      unfold identityTruthy at this
      rcases Bool.and_eq_false_iff.mp this with h' | h'
      · rcases Bool.and_eq_false_iff.mp h' with h'' | h''
        · rcases Bool.and_eq_false_iff.mp h'' with h3 | h3 <;> simp [h3]
        · simp [h'']
      · simp [h']
    simp [recordDedupeHash, compute_dedupe_hash, this]
  have h2 : detect_near_duplicates r exlist = [] := by
    rw [detect_near_duplicates, if_pos (by simp [ht])]
  refine ⟨h1, h2, ?_⟩
  simp only [check_duplicates, h1, h2]
  cases hb : exlist.isEmpty <;> simp [hb, h2]

/-! ## Claim C3 -/

theorem quickConfStr_ge_truthy {r : StrResult} (h : quickConfStr r ≥ 0.85) :
    truthyStr r.value = true := by
  by_contra hn
  have hb : truthyStr r.value = false := by simpa using hn
  unfold quickConfStr at h
  rw [hb] at h
  norm_num at h
  have hm := min_le_right r.conf (0 : ℚ)
  linarith

theorem quickConfQ_ge_truthy {r : QResult} (h : quickConfQ r ≥ 0.85) :
    truthyQ r.value = true := by
  by_contra hn
  have hb : truthyQ r.value = false := by simpa using hn
  unfold quickConfQ at h
  rw [hb] at h
  norm_num at h
  have hm := min_le_right r.conf (0 : ℚ)
  linarith

theorem truthyStr_ne_none {v : Option String} (h : truthyStr v = true) :
    v ≠ none := by
  cases v <;> simp_all [truthyStr]

theorem truthyQ_ne_none {v : Option ℚ} (h : truthyQ v = true) :
    v ≠ none := by
  cases v <;> simp_all [truthyQ]

/-- C3: if, after heuristic extraction, all four required fields have quick
confidence ≥ 0.85, the decision slice issues zero external-model calls:
the early branch does not fire, fallback evaluation is skipped
(`fields_to_extract = []`), the batched call is unreachable, and the field
results pass through unchanged. -/
theorem c3_early_exit_zero_llm_calls (st : PipelineIn)
    (h1 : quickConfStr st.invoiceId ≥ 0.85)
    (h2 : quickConfQ st.totalAmount ≥ 0.85)
    (h3 : quickConfStr st.invoiceDate ≥ 0.85)
    (h4 : quickConfStr st.vendorName ≥ 0.85) :
    (runLLMPhase st).llmCalls = 0 ∧ (runLLMPhase st).fieldsToExtract = []
      ∧ (runLLMPhase st).llmUsed = false
      ∧ (runLLMPhase st).invoiceId = st.invoiceId
      ∧ (runLLMPhase st).invoiceDate = st.invoiceDate
      ∧ (runLLMPhase st).totalAmount = st.totalAmount
      ∧ (runLLMPhase st).vendorName = st.vendorName := by
  have n1 := truthyStr_ne_none (quickConfStr_ge_truthy h1)
  have n2 := truthyQ_ne_none (quickConfQ_ge_truthy h2)
  have n3 := truthyStr_ne_none (quickConfStr_ge_truthy h3)
  have n4 := truthyStr_ne_none (quickConfStr_ge_truthy h4)
  have hsucc : heuristicSuccess st = 4 := by
    unfold heuristicSuccess
    rw [if_pos n1, if_pos n3, if_pos n2, if_pos n4]
  have hne : ¬ doEarlyCall st := by
    rintro ⟨hlt, -, -, -⟩
    omega
  have hpost : postEarly st =
      (st.invoiceId, st.invoiceDate, st.totalAmount, st.vendorName) := by
    unfold postEarly
    rw [if_neg hne]
  have hhigh : allHighConf st.invoiceId st.invoiceDate st.totalAmount
      st.vendorName := ⟨h1, h2, h3, h4⟩
  have hfields : fieldsToExtractOf st = [] := by
    unfold fieldsToExtractOf
    rw [hpost]
    exact if_pos hhigh
  unfold runLLMPhase
  rw [hpost, hfields]
  simp [hne]

/-- Witness for C3: a concrete all-high-confidence state (with low
`compute_field_confidence` scores and slow timings, which must not matter)
issues zero calls. -/
theorem c3_early_exit_zero_llm_calls_witness :
    (runLLMPhase c3WitnessIn).llmCalls = 0
      ∧ (runLLMPhase c3WitnessIn).fieldsToExtract = []
      ∧ (runLLMPhase c3WitnessIn).llmUsed = false
      ∧ (runLLMPhase c3WitnessIn).invoiceId = c3WitnessIn.invoiceId
      ∧ (runLLMPhase c3WitnessIn).invoiceDate = c3WitnessIn.invoiceDate
      ∧ (runLLMPhase c3WitnessIn).totalAmount = c3WitnessIn.totalAmount
      ∧ (runLLMPhase c3WitnessIn).vendorName = c3WitnessIn.vendorName :=
  c3_early_exit_zero_llm_calls c3WitnessIn (by decide) (by decide) (by decide)
    (by decide)

/-! ## Claim C4 -/

/-- C4 fails as stated: when no invoice identifier was extracted, the
reconciliation block accepts an LLM total of 2,000,000 (> 1,000,000)
instead of retaining the heuristic 544.46. -/
theorem c4_counterexample_large_total_no_id :
    (reconcileLLMTotal none ⟨some (54446/100), 0.8, "h"⟩ 0.5 2000000).1.value
        = some 2000000
      ∧ (2000000 : ℚ) > 1000000
      ∧ (reconcileLLMTotal none ⟨some (54446/100), 0.8, "h"⟩ 0.5
          2000000).1.value ≠ some (54446/100) := by
  refine ⟨by norm_num [reconcileLLMTotal, truthyStr], by norm_num,
    by norm_num [reconcileLLMTotal, truthyStr]⟩

/-- C4 (amended): when an invoice identifier is present, an LLM total whose
integer form equals or is a substring of the identifier's digits, or which
exceeds 1,000,000, leaves the heuristic result, confidence and source
unchanged; otherwise the LLM total is accepted with confidence boosted by
+0.2 capped at 0.85 and source tagged `llm`.  (With no identifier the
value is accepted unconditionally — see the counterexample.) -/
theorem c4_reconcile_total_with_id (inv : Option String) (heur : QResult)
    (conf : ℚ) (llm : ℚ) (hinv : truthyStr inv = true) :
    ((pyIntStr (pyTrunc llm) = digitsOf (inv.getD "") ∨
        (digitsOf (inv.getD "") ≠ "" ∧
          strContains (digitsOf (inv.getD "")) (pyIntStr (pyTrunc llm)) = true) ∨
        llm > 1000000) →
      reconcileLLMTotal inv heur conf llm = (heur, conf, none))
  ∧ ((¬ pyIntStr (pyTrunc llm) = digitsOf (inv.getD "")) →
      (¬ (digitsOf (inv.getD "") ≠ "" ∧
        strContains (digitsOf (inv.getD "")) (pyIntStr (pyTrunc llm)) = true)) →
      ¬ llm > 1000000 →
      reconcileLLMTotal inv heur conf llm =
        (⟨some llm, 0.75, "LLM extraction"⟩, min 0.85 (conf + 0.2),
          some "llm")) := by
  constructor
  · intro hrej
    unfold reconcileLLMTotal
    rw [if_pos hinv]
    rcases hrej with h | h | h
    · rw [if_pos (Or.inl h)]
    · rw [if_pos (Or.inr h)]
    · by_cases hm : pyIntStr (pyTrunc llm) = digitsOf (inv.getD "") ∨
          (digitsOf (inv.getD "") ≠ "" ∧
            strContains (digitsOf (inv.getD "")) (pyIntStr (pyTrunc llm)) = true)
      · rw [if_pos hm]
      · rw [if_neg hm, if_pos h]
  · intro hn1 hn2 hn3
    unfold reconcileLLMTotal
    rw [if_pos hinv, if_neg (by tauto), if_neg hn3]

/-- Witness for C4: an LLM total equal to the known invoice id 27301261 is
rejected and the heuristic 544.46 kept. -/
theorem c4_reconcile_total_with_id_witness :
    reconcileLLMTotal (some "27301261") ⟨some (54446/100), 0.7, "s"⟩ 0.6
        27301261 = (⟨some (54446/100), 0.7, "s"⟩, 0.6, none) :=
  (c4_reconcile_total_with_id (some "27301261") ⟨some (54446/100), 0.7, "s"⟩
      0.6 27301261 (by decide)).1 (Or.inl (by decide))

/-! ## Claim C9 -/

/-- C9: `is_invalid` is true iff one of invoice id, total, vendor name,
invoice date is empty, both when the flags are first derived at the end of
the pipeline and after any sequence of user corrections (which re-derive
the `missing_*` flags and `is_invalid` from the corrected values, for
every canonicalizer behaviour). -/
theorem c9_is_invalid_iff_missing (inv : Option String) (tot : Option ℚ)
    (ven dte : Option String) (canonDate canonCur : String → Option String)
    (canonAmt : String → Option ℚ)
    (canonVendor : String → Option String × Option String)
    (rd : ResultDict) (cs : List Correction) :
    ((deriveFlags inv tot ven dte).is_invalid = true ↔
        (missingStrField inv = true ∨ tot = none ∨
          missingStrField ven = true ∨ missingStrField dte = true))
  ∧ ((verifyCorrections canonDate canonCur canonAmt canonVendor rd cs).flags
      = deriveFlags
        (verifyCorrections canonDate canonCur canonAmt canonVendor rd cs).invoice_id
        (verifyCorrections canonDate canonCur canonAmt canonVendor rd cs).total_amount
        (verifyCorrections canonDate canonCur canonAmt canonVendor rd cs).vendor_name
        (verifyCorrections canonDate canonCur canonAmt canonVendor rd cs).invoice_date)
  ∧ ((verifyCorrections canonDate canonCur canonAmt canonVendor rd
        cs).flags.is_invalid = true ↔
      (missingStrField (verifyCorrections canonDate canonCur canonAmt
          canonVendor rd cs).invoice_id = true ∨
        (verifyCorrections canonDate canonCur canonAmt canonVendor rd
          cs).total_amount = none ∨
        missingStrField (verifyCorrections canonDate canonCur canonAmt
          canonVendor rd cs).vendor_name = true ∨
        missingStrField (verifyCorrections canonDate canonCur canonAmt
          canonVendor rd cs).invoice_date = true)) := by
  refine ⟨?_, rfl, ?_⟩
  · simp only [deriveFlags, Bool.or_eq_true, Option.isNone_iff_eq_none]
    tauto
  · simp only [verifyCorrections, deriveFlags, Bool.or_eq_true,
      Option.isNone_iff_eq_none]
    tauto

/-- Witness for C10 at a concrete record with a zero amount. -/
theorem c10_falsy_identity_fields_witness :
    recordDedupeHash (fun s => s)
        { vendor_id := some "v", invoice_id := some "i",
          total_amount := some 0, invoice_date := some "d",
          job_id := some "j", extra := [] } = none
      ∧ detect_near_duplicates
          { vendor_id := some "v", invoice_id := some "i",
            total_amount := some 0, invoice_date := some "d",
            job_id := some "j", extra := [] } [] = []
      ∧ check_duplicates (fun s => s)
          { vendor_id := some "v", invoice_id := some "i",
            total_amount := some 0, invoice_date := some "d",
            job_id := some "j", extra := [] } [] (some []) =
          (false, false, []) :=
  c10_falsy_identity_fields (fun s => s) _ [] []
    ⟨by simp, by simp, by simp, by simp⟩ (Or.inl rfl)

/-! ## Claim C2 -/

theorem pickBest_go_mem :
    ∀ (l : List (ℚ × AmountCand)) (acc : Option (ℚ × AmountCand))
      (x : ℚ × AmountCand),
      l.foldl (fun acc x =>
        match acc with
        | none => some x
        | some a => if x.1 > a.1 then some x else some a) acc = some x →
      x ∈ l ∨ acc = some x := by
  intro l
  induction l with
  | nil => intro acc x h; exact Or.inr h
  | cons a as ih =>
    intro acc x h
    rw [List.foldl_cons] at h
    rcases ih _ x h with hm | he
    · exact Or.inl (List.mem_cons_of_mem _ hm)
    · rcases acc with _ | b
      · dsimp only at he
        cases he
        exact Or.inl (List.mem_cons_self _ _)
      · dsimp only at he
        by_cases hgt : a.1 > b.1
        · rw [if_pos hgt] at he
          cases he
          exact Or.inl (List.mem_cons_self _ _)
        · rw [if_neg hgt] at he
          exact Or.inr he

theorem pickBest_mem {l : List (ℚ × AmountCand)} {x : ℚ × AmountCand}
    (h : pickBest l = some x) : x ∈ l := by
  rcases pickBest_go_mem l none x h with hm | he
  · exact hm
  · cases he

/-- Every value returned by `extract_total_amount` comes from a candidate
that survived the outright-rejection filter. -/
theorem extract_total_result_from_kept (pr : String → String → ℚ)
    (logq : ℚ → ℚ) (blocks : List OCRBlock) (id : Option String) (v : ℚ)
    (cf : ℚ) (rs : String)
    (h : extract_total_amount pr logq blocks id = (some v, cf, rs)) :
    ∃ cand : AmountCand, v = cand.val ∧
      keepCand id (idNumericOf id) (invoiceIdNumbers blocks id) cand
        = true := by
  rw [extract_total_amount] at h
  split_ifs at h with hb
  · simp at h
  · dsimp only at h
    split at h
    · simp at h
    · rename_i best_score best hp
      have hmem := pickBest_mem hp
      rcases List.mem_map.mp hmem with ⟨c, hcf, hceq⟩
      have hkeep := (List.mem_filter.mp hcf).2
      refine ⟨c, ?_, hkeep⟩
      have hv : some best.val = some v := congrArg (fun t => t.1) h
      have hbest : c = best := congrArg (fun t => t.2) hceq
      rw [hbest]
      exact (Option.some.inj hv).symm

/-- Decomposition of a surviving candidate: within the ceiling, positive,
and not numerically equal to the extracted invoice id. -/
theorem keepCand_bounds {id : Option String} {idn : Option ℚ}
    {idns : List String} {c : AmountCand}
    (h : keepCand id idn idns c = true) :
    ¬ c.val > 1000000 ∧ ¬ c.val ≤ 0 ∧
      ∀ q, idn = some q → ¬ |c.val - q| < 0.001 := by
  unfold keepCand at h
  simp only [Bool.and_eq_true, Bool.not_eq_true', decide_eq_true_eq,
    decide_eq_false_iff_not] at h
  refine ⟨h.1.1.1.2, h.1.1.2, ?_⟩
  intro q hq
  have h2 := h.1.1.1.1.2
  rw [hq] at h2
  simpa using h2

/-- The outright-rejection conditions of the scoring loop reject a
candidate (it never enters `scored`): above the 1,000,000 ceiling,
non-positive, numerically equal to the invoice id within 0.001, or an
integral value of ≥6 digits sharing a containment relation with one of the
collected invoice-id digit strings. -/
theorem keepCand_rejects (id : Option String) (idn : Option ℚ)
    (idns : List String) (c : AmountCand)
    (h : c.val > 1000000 ∨ c.val ≤ 0 ∨
      (∃ q, idn = some q ∧ |c.val - q| < 0.001) ∨
      (idns ≠ [] ∧ c.val.den = 1 ∧ (pyIntStr (pyTrunc c.val)).length ≥ 6 ∧
        ∃ inv ∈ idns,
          (strContains (pyIntStr (pyTrunc c.val)) inv
            ∨ strContains inv (pyIntStr (pyTrunc c.val))))) :
    keepCand id idn idns c = false := by
  by_contra hk
  have hk' : keepCand id idn idns c = true := by
    simpa using hk
  unfold keepCand at hk'
  simp only [Bool.and_eq_true, Bool.not_eq_true', decide_eq_true_eq,
    decide_eq_false_iff_not] at hk'
  rcases h with h | h | ⟨q, hq, habs⟩ | ⟨hne, hden, hlen, inv, hinv, hcont⟩
  · exact hk'.1.1.1.2 h
  · exact hk'.1.1.2 h
  · have h2 := hk'.1.1.1.1.2
    rw [hq] at h2
    simp only [decide_eq_false_iff_not] at h2
    exact h2 habs
  · have hany : (idns.any (fun inv =>
        (strContains (pyIntStr (pyTrunc c.val)) inv
          || strContains inv (pyIntStr (pyTrunc c.val)))
          && decide ((pyIntStr (pyTrunc c.val)).length ≥ 6))) = true := by
      rw [List.any_eq_true]
      refine ⟨inv, hinv, ?_⟩
      simp only [Bool.and_eq_true, Bool.or_eq_true, decide_eq_true_eq]
      exact ⟨by rcases hcont with hc | hc <;> simp [hc], hlen⟩
    have hall : (decide (idns ≠ []) && decide (c.val.den = 1) &&
        idns.any (fun inv =>
          (strContains (pyIntStr (pyTrunc c.val)) inv
            || strContains inv (pyIntStr (pyTrunc c.val)))
            && decide ((pyIntStr (pyTrunc c.val)).length ≥ 6))) = true := by
      simp only [Bool.and_eq_true, decide_eq_true_eq]
      exact ⟨⟨hne, hden⟩, hany⟩
    rw [hk'.2] at hall
    cases hall

/-- `extract_total_amount` returns the no-candidate triple whenever no
block yields an `AMOUNT_RELAXED` match, whatever the label-matching oracle
does. -/
theorem extract_no_candidates (pr : String → String → ℚ) (logq : ℚ → ℚ)
    (blocks : List OCRBlock) (id : Option String) (hb : blocks ≠ [])
    (hall : ∀ b ∈ blocks, relaxedFindAll (normalize_text b.text) = []) :
    extract_total_amount pr logq blocks id =
      (none, 0.0, "No total amount found") := by
  rw [extract_total_amount, if_neg hb]
  have hcand : ∀ (lys : List ℚ) (ph : ℚ),
      (orderedBlocks lys ph blocks).flatMap (blockCands lys ph) = [] := by
    intro lys ph
    apply List.flatMap_eq_nil_iff.mpr
    intro b hbm
    have hbin : b ∈ blocks := by
      unfold orderedBlocks at hbm
      rcases List.mem_append.mp hbm with hm | hm
      · exact (List.mem_filter.mp hm).1
      · exact (List.mem_filter.mp (List.take_subset _ _ hm)).1
    by_cases ht : normalize_text b.text = ""
    · simp [blockCands, ht]
    · simp [blockCands, ht, hall b hbin]
  dsimp only
  rw [hcand]
  rfl

/-- C2: the guards hold — `extract_total_amount` with invoice id
`"27301261"` can never return `27301261.0`, and oversized, non-positive or
id-colliding candidates are rejected outright — but on the repository's
own regression-test blocks (amount token `"$544,46"`) the function returns
no amount at all instead of 544.46: the mandatory lookbehind of
`AMOUNT_RELAXED` refuses `544,46` glued to the `$`, and `27301261` has no
decimal tail, so no candidate exists. -/
theorem c2_total_vs_invoice_id :
    (∀ (pr : String → String → ℚ) (logq : ℚ → ℚ),
      extract_total_amount pr logq c2FailBlocks (some "27301261") =
        (none, 0.0, "No total amount found"))
  ∧ (∀ (pr : String → String → ℚ) (logq : ℚ → ℚ) (blocks : List OCRBlock),
      (extract_total_amount pr logq blocks (some "27301261")).1
        ≠ some 27301261)
  ∧ (∀ (id : Option String) (idn : Option ℚ) (idns : List String)
        (c : AmountCand),
      c.val > 1000000 ∨ c.val ≤ 0 ∨
          (∃ q, idn = some q ∧ |c.val - q| < 0.001) ∨
          (idns ≠ [] ∧ c.val.den = 1 ∧
            (pyIntStr (pyTrunc c.val)).length ≥ 6 ∧
            ∃ inv ∈ idns,
              (strContains (pyIntStr (pyTrunc c.val)) inv
                ∨ strContains inv (pyIntStr (pyTrunc c.val)))) →
        keepCand id idn idns c = false)
  ∧ (∀ (pr : String → String → ℚ) (logq : ℚ → ℚ) (blocks : List OCRBlock)
        (id : Option String) (v cf : ℚ) (rs : String),
      extract_total_amount pr logq blocks id = (some v, cf, rs) →
      ∃ cand : AmountCand, v = cand.val ∧
        keepCand id (idNumericOf id) (invoiceIdNumbers blocks id) cand
          = true) := by
  refine ⟨?_, ?_, keepCand_rejects, extract_total_result_from_kept⟩
  · intro pr logq
    exact extract_no_candidates pr logq c2FailBlocks (some "27301261")
      (by decide) (by decide)
  · intro pr logq blocks h
    have h' : extract_total_amount pr logq blocks (some "27301261") =
        (some 27301261,
          (extract_total_amount pr logq blocks (some "27301261")).2.1,
          (extract_total_amount pr logq blocks (some "27301261")).2.2) := by
      rw [← h]
    obtain ⟨cand, hv, hkeep⟩ := extract_total_result_from_kept _ _ _ _ _ _ _ h'
    have hle := (keepCand_bounds hkeep).1
    rw [← hv] at hle
    norm_num at hle

/-- Witness for C2's rejection conjunct at a concrete oversized candidate
and for the concrete no-candidate evaluation. -/
theorem c2_total_vs_invoice_id_witness :
    keepCand (some "27301261") (idNumericOf (some "27301261"))
        (invoiceIdNumbers c2FailBlocks (some "27301261"))
        ⟨"2000000,00", 2000000, ⟨"x", (0, 0, 1, 1), 1, "pdfplumber"⟩, false,
          0, false⟩ = false
      ∧ extract_total_amount (fun _ _ => 0) (fun _ => 0) c2FailBlocks
          (some "27301261") = (none, 0.0, "No total amount found") :=
  ⟨c2_total_vs_invoice_id.2.2.1 (some "27301261") _ _ _ (Or.inl (by norm_num)),
   c2_total_vs_invoice_id.1 (fun _ _ => 0) (fun _ => 0)⟩

end ReXcan
